import Mathlib

/-!
Shallow embedding of `src/certificate_watcher.py`.

Conventions of the embedding:
* Python strings are `String` / `List Char` (ASCII subset; the source only
  handles host tokens and report lines).
* `datetime` instants and `timedelta` durations are integers counted in
  seconds.  The source formats day counts with
  `total_seconds() // 86400` and `"{:.0f}"`, i.e. floor division toward
  negative infinity of an integral float, rendered without a decimal
  point; this is `Int.fdiv _ 86400` rendered by `toString`.
* The two consecutive `datetime.utcnow()` calls on lines 147-148 are
  modelled as a single instant `now`.
* Network and OCSP effects are replaced by their outcomes: a `FetchResult`
  stands for what `get_server_certificate` did (which `except` arm of
  `validate_certificate` would catch, or the certificate fields on
  success), and an `OcspOutcome` stands for what
  `ocspchecker.get_ocsp_status(service)[2]` did (returned a status string,
  or raised).
-/

namespace CertificateWatcher

/-! ### Python `int()` on a string

Model of Python's `int(str)` used on line 117 (`int(value[1:])`): strip
surrounding whitespace, optional single sign, then a non-empty run of
ASCII digits in which single underscores may separate digits.  Returns
`none` where Python raises `ValueError`. -/

def pyIsSpace (c : Char) : Bool :=
  c = ' ' || c = '\t' || c = '\n' || c = '\r' || c = '\x0b' || c = '\x0c'

def pyStrip (cs : List Char) : List Char :=
  ((cs.dropWhile pyIsSpace).reverse.dropWhile pyIsSpace).reverse

def digitsTail : List Char → Bool
  | [] => true
  | '_' :: [] => false
  | '_' :: d :: rest => d.isDigit && digitsTail rest
  | d :: rest => d.isDigit && digitsTail rest

def digitsOk : List Char → Bool
  | [] => false
  | d :: rest => d.isDigit && digitsTail rest

def digitsVal (cs : List Char) : Nat :=
  (cs.filter (fun c => c ≠ '_')).foldl (fun a c => 10 * a + (c.toNat - 48)) 0

def pyIntChars (cs : List Char) : Option Int :=
  match pyStrip cs with
  | '+' :: rest => if digitsOk rest then some (digitsVal rest : Int) else none
  | '-' :: rest => if digitsOk rest then some (-(digitsVal rest : Int)) else none
  | rest => if digitsOk rest then some (digitsVal rest : Int) else none

def pyInt (s : String) : Option Int := pyIntChars s.data

/-! ### The descriptor scanner

`Service.SPEC = "(?P<ip>@[^@:]+)|(?P<port>:[^@:]+)|(?P<hostname>[^@:]+)"`
scanned with `re.finditer` (line 111).  At each position exactly one
alternative can start, determined by the first character; each part then
greedily takes the following run of characters that are neither `@` nor
`:`.  A `@` or `:` not followed by such a character matches nothing and
the scan advances one character.  `scanPartsF` is the scan with an
explicit fuel so that it is structurally recursive; each step consumes at
least one character, so fuel equal to the length of the input is always
enough. -/

inductive Part where
  | ipPart (v : String)
  | portPart (v : String)
  | hostPart (v : String)
deriving DecidableEq, Repr

def nonSep (c : Char) : Bool := c ≠ '@' && c ≠ ':'

def scanPartsF : Nat → List Char → List Part
  | 0, _ => []
  | _ + 1, [] => []
  | fuel + 1, c :: rest =>
    if c = '@' then
      if (rest.takeWhile nonSep).isEmpty then scanPartsF fuel rest
      else
        Part.ipPart (String.mk (rest.takeWhile nonSep)) ::
          scanPartsF fuel (rest.drop (rest.takeWhile nonSep).length)
    else if c = ':' then
      if (rest.takeWhile nonSep).isEmpty then scanPartsF fuel rest
      else
        Part.portPart (String.mk (rest.takeWhile nonSep)) ::
          scanPartsF fuel (rest.drop (rest.takeWhile nonSep).length)
    else
      Part.hostPart (String.mk (c :: rest.takeWhile nonSep)) ::
        scanPartsF fuel (rest.drop (rest.takeWhile nonSep).length)

def scanParts (cs : List Char) : List Part := scanPartsF cs.length cs

/-! ### `class Service` (lines 103-122)

`Service.__init__` starts from `ip = None`, `port = 443`,
`hostname = None` and assigns for each scanned part in order; the port
part goes through `int(value[1:])`, whose `ValueError` aborts
construction — modelled by `Option`.  The leading `@` / `:` of a part is
already dropped by the scanner. -/

structure Service where
  description : String
  ip : Option String
  port : Int
  hostname : Option String
deriving DecidableEq, Repr

def applyParts : List Part → Service → Option Service
  | [], s => some s
  | Part.ipPart v :: rest, s => applyParts rest { s with ip := some v }
  | Part.portPart v :: rest, s =>
    (pyInt v).bind fun n => applyParts rest { s with port := n }
  | Part.hostPart v :: rest, s => applyParts rest { s with hostname := some v }

def Service.parse (d : String) : Option Service :=
  applyParts (scanParts d.data)
    { description := d, ip := none, port := 443, hostname := none }

/-! ### `validate_certificate` (lines 129-161) -/

inductive FailureKind where
  | ConnectTimeout
  | ConnectionReset
  | NetworkError
  | Revoked
  | ExpiringSoon
  | TooOld
deriving DecidableEq, Repr

inductive ValidationResult where
  | Ok
  | Failed (kind : FailureKind) (detail : String)
deriving DecidableEq, Repr

/-- Outcome of `get_server_certificate(service, timeout=delay)`: the
certificate's `notBefore` / `notAfter` instants on success, else which
`except` arm of `validate_certificate` the raised exception falls into
(`socket.timeout`, `ConnectionResetError`, or any other `Exception`
carrying `str(err)`). -/
inductive FetchResult where
  | success (notBefore notAfter : Int)
  | timeout
  | reset
  | otherError (msg : String)
deriving DecidableEq, Repr

/-- Outcome of `ocspchecker.get_ocsp_status(service)[2]`: the status
string, or an exception raised by the collaborator. -/
inductive OcspOutcome where
  | status (s : String)
  | raises (msg : String)
deriving DecidableEq, Repr

/-- How a call of `validate_certificate` ends: `result .Ok` is a normal
return, `result (.Failed k d)` is a raised `CertificateValidationError`
with message `d` (tagged with the raise site `k`), and `uncaught m` is an
exception that escapes the function unwrapped. -/
inductive ValidationOutcome where
  | result (r : ValidationResult)
  | uncaught (msg : String)
deriving DecidableEq, Repr

/-- Lines 154-161: the expiry and age checks, with the exact message
strings of the source; `Int.fdiv _ 86400` is
`total_seconds() // 86400` formatted by `"{:.0f}"`. -/
def expiryAgeCheck (expire_in certificate_age limitlow limithigh : Int) :
    ValidationOutcome :=
  if expire_in < limitlow then
    ValidationOutcome.result (ValidationResult.Failed FailureKind.ExpiringSoon
      ("Certificate expires in " ++ toString (Int.fdiv expire_in 86400) ++ " days"))
  else if certificate_age > limithigh then
    ValidationOutcome.result (ValidationResult.Failed FailureKind.TooOld
      ("Certificate is too old (has been created " ++
        toString (Int.fdiv certificate_age 86400) ++ " days ago)"))
  else ValidationOutcome.result ValidationResult.Ok

/-- `validate_certificate(service, limitlow, limithigh, check_ocsp, delay)`:
the fetch (and the `delay` it consumes) is summarised by `fetch`, the OCSP
collaborator by `ocsp`.  Note line 151 compares against
`"OCSP Status: REVOKED"` while line 153 raises `"OCSP Satus: REVOKED"`
(sic, typo in the source).  The OCSP call sits in the `else:` clause of
the `try`, so an exception it raises is not caught. -/
def validate_certificate (fetch : FetchResult) (ocsp : OcspOutcome)
    (now limitlow limithigh : Int) (check_ocsp : Bool) : ValidationOutcome :=
  match fetch with
  | FetchResult.timeout =>
    ValidationOutcome.result
      (ValidationResult.Failed FailureKind.ConnectTimeout "connect timeout")
  | FetchResult.reset =>
    ValidationOutcome.result
      (ValidationResult.Failed FailureKind.ConnectionReset "Connection reset")
  | FetchResult.otherError msg =>
    ValidationOutcome.result
      (ValidationResult.Failed FailureKind.NetworkError msg)
  | FetchResult.success notBefore notAfter =>
    let expire_in := notAfter - now
    let certificate_age := now - notBefore
    match check_ocsp, ocsp with
    | true, OcspOutcome.raises e => ValidationOutcome.uncaught e
    | true, OcspOutcome.status s =>
      if s = "OCSP Status: REVOKED" then
        ValidationOutcome.result
          (ValidationResult.Failed FailureKind.Revoked "OCSP Satus: REVOKED")
      else expiryAgeCheck expire_in certificate_age limitlow limithigh
    | false, _ => expiryAgeCheck expire_in certificate_age limitlow limithigh

/-! ### Host-list loading in `main` (lines 178-184)

`args.from_file.read().split("\n")`, filtered by
`if host and not host.startswith("#")` on the RAW line, then each kept
line is `strip()`ped; the results are appended after the positional
hosts. -/

def splitOnNl : List Char → List (List Char)
  | [] => [[]]
  | c :: rest =>
    if c = '\n' then [] :: splitOnNl rest
    else
      match splitOnNl rest with
      | [] => [[c]]
      | l :: ls => (c :: l) :: ls

def startsHash : List Char → Bool
  | [] => false
  | c :: _ => c = '#'

def readHostLines (content : List Char) : List (List Char) :=
  ((splitOnNl content).filter (fun l => !l.isEmpty && !startsHash l)).map pyStrip

def collectHosts (positional : List (List Char)) (fromFile : Option (List Char)) :
    List (List Char) :=
  match fromFile with
  | none => positional
  | some content => positional ++ readHostLines content

/-! ### Spec-side characterisations

`lastHostStr` / `lastIpStr` / `lastPortStr` give the payload of the last
occurrence of a part type in scan order, used to state last-wins.
`keptLines` restates the file-loading loop line by line. -/

def lastHostStr : List Part → Option String
  | [] => none
  | Part.hostPart v :: rest =>
    match lastHostStr rest with
    | none => some v
    | some w => some w
  | _ :: rest => lastHostStr rest

def lastIpStr : List Part → Option String
  | [] => none
  | Part.ipPart v :: rest =>
    match lastIpStr rest with
    | none => some v
    | some w => some w
  | _ :: rest => lastIpStr rest

def lastPortStr : List Part → Option String
  | [] => none
  | Part.portPart v :: rest =>
    match lastPortStr rest with
    | none => some v
    | some w => some w
  | _ :: rest => lastPortStr rest

/-- Modelled from the spec sentence for `--from-file`, as amended: walk
the lines in file order; drop a line that is empty or whose first
character is `#`; keep every other line stripped. -/
def keptLines : List (List Char) → List (List Char)
  | [] => []
  | l :: ls =>
    if l.isEmpty || startsHash l then keptLines ls else pyStrip l :: keptLines ls

/-! ### Helper lemmas -/

theorem scanPartsF_nil (fuel : Nat) : scanPartsF fuel [] = [] := by
  cases fuel <;> rfl

theorem nonSep_eq_true {c : Char} : nonSep c = true ↔ c ≠ '@' ∧ c ≠ ':' := by
  simp [nonSep]

theorem scanPartsF_hostPart_ne_empty (fuel : Nat) :
    ∀ (cs : List Char) (v : String), Part.hostPart v ∈ scanPartsF fuel cs → v ≠ "" := by
  induction fuel with
  | zero => intro cs v h; simp [scanPartsF] at h
  | succ fuel ih =>
    intro cs v h
    match cs with
    | [] => simp [scanPartsF] at h
    | c :: rest =>
      simp only [scanPartsF] at h
      split at h
      · split at h
        · exact ih _ _ h
        · rcases List.mem_cons.mp h with heq | hmem
          · simp at heq
          · exact ih _ _ hmem
      · split at h
        · split at h
          · exact ih _ _ h
          · rcases List.mem_cons.mp h with heq | hmem
            · simp at heq
            · exact ih _ _ hmem
        · rcases List.mem_cons.mp h with heq | hmem
          · injection heq with hv
            subst hv
            intro hemp
            have h2 := congrArg String.data hemp
            simp at h2
          · exact ih _ _ hmem

theorem lastHostStr_mem (parts : List Part) :
    ∀ v, lastHostStr parts = some v → Part.hostPart v ∈ parts := by
  induction parts with
  | nil => intro v h; simp [lastHostStr] at h
  | cons p rest ih =>
    intro v h
    cases p with
    | hostPart w =>
      simp only [lastHostStr] at h
      cases hl : lastHostStr rest with
      | none =>
        rw [hl] at h
        simp at h
        subst h
        exact List.mem_cons_self _ _
      | some u =>
        rw [hl] at h
        simp at h
        subst h
        exact List.mem_cons_of_mem _ (ih _ hl)
    | ipPart w => exact List.mem_cons_of_mem _ (ih _ h)
    | portPart w => exact List.mem_cons_of_mem _ (ih _ h)

theorem applyParts_description (parts : List Part) :
    ∀ s s', applyParts parts s = some s' → s'.description = s.description := by
  induction parts with
  | nil =>
    intro s s' h
    simp only [applyParts, Option.some.injEq] at h
    subst h; rfl
  | cons p rest ih =>
    intro s s' h
    cases p with
    | ipPart v =>
      simp only [applyParts] at h
      have hres := ih _ _ h
      exact hres
    | hostPart v =>
      simp only [applyParts] at h
      have hres := ih _ _ h
      exact hres
    | portPart v =>
      simp only [applyParts] at h
      cases hp : pyInt v with
      | none => rw [hp] at h; simp at h
      | some n =>
        rw [hp, Option.some_bind] at h
        have hres := ih _ _ h
        exact hres

theorem applyParts_hostname (parts : List Part) :
    ∀ s s', applyParts parts s = some s' →
      s'.hostname =
        (match lastHostStr parts with | none => s.hostname | some v => some v) := by
  induction parts with
  | nil =>
    intro s s' h
    simp only [applyParts, Option.some.injEq] at h
    subst h; rfl
  | cons p rest ih =>
    intro s s' h
    cases p with
    | ipPart v =>
      simp only [applyParts] at h
      have hres := ih _ _ h
      exact hres
    | hostPart v =>
      simp only [applyParts] at h
      have h2 := ih _ _ h
      cases hl : lastHostStr rest with
      | none => rw [hl] at h2; simpa [lastHostStr, hl] using h2
      | some w => rw [hl] at h2; simpa [lastHostStr, hl] using h2
    | portPart v =>
      simp only [applyParts] at h
      cases hp : pyInt v with
      | none => rw [hp] at h; simp at h
      | some n =>
        rw [hp, Option.some_bind] at h
        have hres := ih _ _ h
        exact hres

theorem applyParts_ip (parts : List Part) :
    ∀ s s', applyParts parts s = some s' →
      s'.ip = (match lastIpStr parts with | none => s.ip | some v => some v) := by
  induction parts with
  | nil =>
    intro s s' h
    simp only [applyParts, Option.some.injEq] at h
    subst h; rfl
  | cons p rest ih =>
    intro s s' h
    cases p with
    | hostPart v =>
      simp only [applyParts] at h
      have hres := ih _ _ h
      exact hres
    | ipPart v =>
      simp only [applyParts] at h
      have h2 := ih _ _ h
      cases hl : lastIpStr rest with
      | none => rw [hl] at h2; simpa [lastIpStr, hl] using h2
      | some w => rw [hl] at h2; simpa [lastIpStr, hl] using h2
    | portPart v =>
      simp only [applyParts] at h
      cases hp : pyInt v with
      | none => rw [hp] at h; simp at h
      | some n =>
        rw [hp, Option.some_bind] at h
        have hres := ih _ _ h
        exact hres

theorem applyParts_port (parts : List Part) :
    ∀ s s', applyParts parts s = some s' →
      (lastPortStr parts = none ∧ s'.port = s.port) ∨
        ∃ v, lastPortStr parts = some v ∧ pyInt v = some s'.port := by
  induction parts with
  | nil =>
    intro s s' h
    simp only [applyParts, Option.some.injEq] at h
    subst h
    exact Or.inl ⟨rfl, rfl⟩
  | cons p rest ih =>
    intro s s' h
    cases p with
    | ipPart v =>
      simp only [applyParts] at h
      rcases ih _ _ h with ⟨h1, h2⟩ | ⟨w, hw, hpw⟩
      · exact Or.inl ⟨h1, h2⟩
      · exact Or.inr ⟨w, hw, hpw⟩
    | hostPart v =>
      simp only [applyParts] at h
      rcases ih _ _ h with ⟨h1, h2⟩ | ⟨w, hw, hpw⟩
      · exact Or.inl ⟨h1, h2⟩
      · exact Or.inr ⟨w, hw, hpw⟩
    | portPart v =>
      simp only [applyParts] at h
      cases hp : pyInt v with
      | none => rw [hp] at h; simp at h
      | some n =>
        rw [hp, Option.some_bind] at h
        rcases ih _ _ h with ⟨h1, h2⟩ | ⟨w, hw, hpw⟩
        · refine Or.inr ⟨v, ?_, ?_⟩
          · simp [lastPortStr, h1]
          · have h2' : s'.port = n := h2
            rw [h2']
            exact hp
        · exact Or.inr ⟨w, by simp [lastPortStr, hw], hpw⟩

theorem applyParts_eq_none_iff (parts : List Part) :
    ∀ s, applyParts parts s = none ↔
      ∃ v, Part.portPart v ∈ parts ∧ pyInt v = none := by
  induction parts with
  | nil => intro s; simp [applyParts]
  | cons p rest ih =>
    intro s
    cases p with
    | ipPart v =>
      rw [show applyParts (Part.ipPart v :: rest) s
            = applyParts rest { s with ip := some v } from rfl, ih]
      simp
    | hostPart v =>
      rw [show applyParts (Part.hostPart v :: rest) s
            = applyParts rest { s with hostname := some v } from rfl, ih]
      simp
    | portPart v =>
      simp only [applyParts]
      cases hp : pyInt v with
      | none =>
        simp only [hp, Option.none_bind, List.mem_cons]
        constructor
        · intro _
          exact ⟨v, Or.inl rfl, hp⟩
        · intro _
          trivial
      | some n =>
        simp only [hp, Option.some_bind]
        rw [ih]
        constructor
        · rintro ⟨w, hw, hpw⟩
          exact ⟨w, List.mem_cons_of_mem _ hw, hpw⟩
        · rintro ⟨w, hw, hpw⟩
          rcases List.mem_cons.mp hw with heq | hmem
          · injection heq with hv
            subst hv
            simp [hpw] at hp
          · exact ⟨w, hmem, hpw⟩

theorem keptLines_eq (ls : List (List Char)) :
    (ls.filter (fun l => !l.isEmpty && !startsHash l)).map pyStrip = keptLines ls := by
  induction ls with
  | nil => rfl
  | cons l rest ih =>
    cases he : l.isEmpty <;> cases hh : startsHash l <;>
      simp [keptLines, List.filter_cons, he, hh, ih]

/-! ### The claims -/

/-- C1: after a successful certificate fetch, with the revocation check
disabled or reporting a non-revoked status, the Validation Engine fails
with `ExpiringSoon` and the message `"Certificate expires in <N> days"`
(N the floor toward negative infinity of `expiresIn` in whole days, so
negative for an already-expired certificate) whenever
`expiresIn < minRemaining`; otherwise fails with `TooOld` and
`"Certificate is too old (has been created <N> days ago)"` whenever
`age > maxAge`; otherwise returns `Ok`. -/
theorem validate_expiry_age_policy (nb na now ll lh : Int) (check : Bool)
    (o : OcspOutcome)
    (h : check = false ∨
      ∃ s, o = OcspOutcome.status s ∧ s ≠ "OCSP Status: REVOKED") :
    validate_certificate (FetchResult.success nb na) o now ll lh check =
      (if na - now < ll then
        ValidationOutcome.result (ValidationResult.Failed FailureKind.ExpiringSoon
          ("Certificate expires in " ++ toString (Int.fdiv (na - now) 86400) ++ " days"))
      else if now - nb > lh then
        ValidationOutcome.result (ValidationResult.Failed FailureKind.TooOld
          ("Certificate is too old (has been created " ++
            toString (Int.fdiv (now - nb) 86400) ++ " days ago)"))
      else ValidationOutcome.result ValidationResult.Ok) := by
  rcases h with hc | ⟨s, ho, hs⟩
  · subst hc; rfl
  · subst ho
    cases check
    · rfl
    · simp [validate_certificate, expiryAgeCheck, hs]

/-- C1 witness: `notAfter = now + 5` days against `minRemaining = 15`
days fails with `"Certificate expires in 5 days"`, while
`notAfter = now + 20` days passes (age 0, `maxAge = 365` days). -/
theorem validate_expiry_age_policy_witness :
    validate_certificate (FetchResult.success 0 432000) (OcspOutcome.status "GOOD")
        0 1296000 31536000 false =
      ValidationOutcome.result (ValidationResult.Failed FailureKind.ExpiringSoon
        "Certificate expires in 5 days") ∧
    validate_certificate (FetchResult.success 0 1728000) (OcspOutcome.status "GOOD")
        0 1296000 31536000 false =
      ValidationOutcome.result ValidationResult.Ok := by
  constructor
  · rw [validate_expiry_age_policy 0 432000 0 1296000 31536000 false
      (OcspOutcome.status "GOOD") (Or.inl rfl)]
    decide
  · rw [validate_expiry_age_policy 0 1728000 0 1296000 31536000 false
      (OcspOutcome.status "GOOD") (Or.inl rfl)]
    decide

/-- C2 (code bug): with the revocation check enabled and the
collaborator reporting `"OCSP Status: REVOKED"`, the engine does fail
with kind `Revoked` before the expiry/age checks (which would both pass
on this certificate, as the second conjunct shows), and with
`checkRevocation` unset the collaborator's answer is never consulted —
but the detail string raised is the source's misspelt
`"OCSP Satus: REVOKED"` (line 153), not the claimed
`"OCSP Status: REVOKED"`. -/
theorem validate_revoked_typo_before_expiry :
    validate_certificate (FetchResult.success (-864000) 8640000)
        (OcspOutcome.status "OCSP Status: REVOKED") 0 1296000 31536000 true =
      ValidationOutcome.result
        (ValidationResult.Failed FailureKind.Revoked "OCSP Satus: REVOKED") ∧
    validate_certificate (FetchResult.success (-864000) 8640000)
        (OcspOutcome.status "GOOD") 0 1296000 31536000 true =
      ValidationOutcome.result ValidationResult.Ok ∧
    ∀ (f : FetchResult) (o1 o2 : OcspOutcome) (now ll lh : Int),
      validate_certificate f o1 now ll lh false =
        validate_certificate f o2 now ll lh false := by
  refine ⟨by decide, by decide, ?_⟩
  intro f o1 o2 now ll lh
  cases f <;> rfl

/-- C3: a fetch failure short-circuits the engine, independently of the
policy and of the revocation collaborator: a connect timeout yields
`Failed ConnectTimeout "connect timeout"`, a connection reset yields
`Failed ConnectionReset "Connection reset"`, and any other failure
yields `Failed NetworkError` carrying the underlying message — never
`Ok` and never a policy-based kind. -/
theorem validate_fetch_failure_short_circuit
    (o : OcspOutcome) (now ll lh : Int) (check : Bool) (msg : String) :
    validate_certificate FetchResult.timeout o now ll lh check =
      ValidationOutcome.result
        (ValidationResult.Failed FailureKind.ConnectTimeout "connect timeout") ∧
    validate_certificate FetchResult.reset o now ll lh check =
      ValidationOutcome.result
        (ValidationResult.Failed FailureKind.ConnectionReset "Connection reset") ∧
    validate_certificate (FetchResult.otherError msg) o now ll lh check =
      ValidationOutcome.result
        (ValidationResult.Failed FailureKind.NetworkError msg) :=
  ⟨rfl, rfl, rfl⟩

/-- C4 (counterexample): on the token `"host:abc"` the parser reaches
`int("abc")`, which raises `ValueError`, so parsing does not terminate
normally on every token. -/
theorem parse_nonnumeric_port_fails :
    scanParts ("host:abc".data) = [Part.hostPart "host", Part.portPart "abc"] ∧
    pyInt "abc" = none ∧
    Service.parse "host:abc" = none := by
  refine ⟨by decide, by decide, by decide⟩

/-- C4 (amended): the parser terminates on every token and the only
exception it can raise is `ValueError` from `int` on a port part:
construction fails exactly when some scanned port part is not a valid
integer literal.  (A token with no hostname part is not an error: it
parses with the hostname left unset.) -/
theorem parse_fails_iff_bad_port (d : String) :
    Service.parse d = none ↔
      ∃ v, Part.portPart v ∈ scanParts d.data ∧ pyInt v = none :=
  applyParts_eq_none_iff _ _

/-- C5 (counterexample): `"@1.2.3.4"` parses with no hostname at all
(`None`, not a non-empty string), and `":-1"` parses with port `-1`,
which is not a positive integer. -/
theorem parse_invariant_counterexample :
    Service.parse "@1.2.3.4" =
      some { description := "@1.2.3.4", ip := some "1.2.3.4",
             port := 443, hostname := none } ∧
    Service.parse ":-1" =
      some { description := ":-1", ip := none, port := -1, hostname := none } := by
  refine ⟨by decide, by decide⟩

/-- C5 (amended): the hostname may be absent and the port non-positive;
what does hold is that whenever parsing sets a hostname it is a
non-empty string (a hostname part is a non-empty run of characters
other than `@` and `:`). -/
theorem parse_hostname_nonempty_when_present (d : String) (s : Service)
    (hparse : Service.parse d = some s) (h : String)
    (hh : s.hostname = some h) : h ≠ "" := by
  have h1 := applyParts_hostname _ _ _ hparse
  rw [hh] at h1
  cases hl : lastHostStr (scanParts d.data) with
  | none => rw [hl] at h1; simp at h1
  | some w =>
    rw [hl] at h1
    simp at h1
    subst h1
    exact scanPartsF_hostPart_ne_empty _ _ _ (lastHostStr_mem _ _ hl)

/-- C5 witness: `"a@b:1"` parses with hostname `"a"`, which is
non-empty. -/
theorem parse_hostname_nonempty_witness :
    Service.parse "a@b:1" =
      some { description := "a@b:1", ip := some "b", port := 1,
             hostname := some "a" } ∧
    "a" ≠ "" :=
  ⟨by decide,
    parse_hostname_nonempty_when_present "a@b:1"
      { description := "a@b:1", ip := some "b", port := 1, hostname := some "a" }
      (by decide) "a" rfl⟩

/-- C6 (counterexample): `"h@i:1"` parses as hostname `h`, ip `i`,
port `1`, but its rearrangement `":1@ih"` does not give the same
result: the hostname written directly after the IP part merges into it,
yielding ip `"ih"` and no hostname at all. -/
theorem parse_order_counterexample :
    Service.parse "h@i:1" =
      some { description := "h@i:1", ip := some "i", port := 1,
             hostname := some "h" } ∧
    Service.parse ":1@ih" =
      some { description := ":1@ih", ip := some "ih", port := 1,
             hostname := none } ∧
    Service.parse ":1@ih" ≠
      some { description := ":1@ih", ip := some "i", port := 1,
             hostname := some "h" } := by
  refine ⟨by decide, by decide, by decide⟩

/-- C6 (amended): order-insensitivity holds at the level of scanned
parts: whenever the scanner recognises exactly one hostname part `h`,
one IP part `i` and one port part `p` — in whichever of the six orders —
and `p` is a valid integer literal of value `n`, the parser yields
hostname `h`, ipOverride `i` and port `n`.  (Not every textual
rearrangement scans into the same three parts; see the
counterexample.) -/
theorem parse_order_insensitive (d h i p : String) (n : Int)
    (hp : pyInt p = some n)
    (hscan :
      scanParts d.data = [Part.hostPart h, Part.ipPart i, Part.portPart p] ∨
      scanParts d.data = [Part.hostPart h, Part.portPart p, Part.ipPart i] ∨
      scanParts d.data = [Part.ipPart i, Part.hostPart h, Part.portPart p] ∨
      scanParts d.data = [Part.ipPart i, Part.portPart p, Part.hostPart h] ∨
      scanParts d.data = [Part.portPart p, Part.hostPart h, Part.ipPart i] ∨
      scanParts d.data = [Part.portPart p, Part.ipPart i, Part.hostPart h]) :
    Service.parse d =
      some { description := d, ip := some i, port := n, hostname := some h } := by
  unfold Service.parse
  rcases hscan with hs | hs | hs | hs | hs | hs <;>
    rw [hs] <;> simp [applyParts, hp]

/-- C6 witness: `"h@i:8443"` scans into the three parts in hostname-ip-
port order and parses to hostname `h`, ip `i`, port `8443`. -/
theorem parse_order_insensitive_witness :
    pyInt "8443" = some 8443 ∧
    scanParts ("h@i:8443".data) =
      [Part.hostPart "h", Part.ipPart "i", Part.portPart "8443"] ∧
    Service.parse "h@i:8443" =
      some { description := "h@i:8443", ip := some "i", port := 8443,
             hostname := some "h" } :=
  ⟨by decide, by decide,
    parse_order_insensitive "h@i:8443" "h" "i" "8443" 8443 (by decide)
      (Or.inl (by decide))⟩

/-- C7 (counterexample): in `":1:x"` the port part type appears twice,
and the parser does not keep the last occurrence while raising no error:
`int("x")` raises `ValueError` and construction fails outright. -/
theorem parse_duplicate_port_error :
    scanParts (":1:x".data) = [Part.portPart "1", Part.portPart "x"] ∧
    Service.parse ":1:x" = none := by
  refine ⟨by decide, by decide⟩

/-- C7 (amended): on every token on which construction succeeds (i.e.
every port part is a valid integer literal), each field reflects the
last occurrence of its part type in left-to-right scan order, earlier
occurrences being silently overwritten with no duplicate or conflict
error; an absent part type keeps its default (`hostname = None`,
`ip = None`, `port = 443`). -/
theorem parse_last_occurrence_wins (d : String) (s : Service)
    (hparse : Service.parse d = some s) :
    s.description = d ∧
    s.hostname = lastHostStr (scanParts d.data) ∧
    s.ip = lastIpStr (scanParts d.data) ∧
    (lastPortStr (scanParts d.data) = none → s.port = 443) ∧
    (∀ v, lastPortStr (scanParts d.data) = some v → pyInt v = some s.port) := by
  refine ⟨applyParts_description _ _ _ hparse, ?_, ?_, ?_, ?_⟩
  · have h1 := applyParts_hostname _ _ _ hparse
    cases hl : lastHostStr (scanParts d.data) <;> rw [hl] at h1 <;>
      simpa [hl] using h1
  · have h1 := applyParts_ip _ _ _ hparse
    cases hl : lastIpStr (scanParts d.data) <;> rw [hl] at h1 <;>
      simpa [hl] using h1
  · intro hnone
    rcases applyParts_port _ _ _ hparse with ⟨_, h2⟩ | ⟨w, hw, _⟩
    · exact h2
    · simp [hnone] at hw
  · intro v hv
    rcases applyParts_port _ _ _ hparse with ⟨hnone, _⟩ | ⟨w, hw, hpw⟩
    · simp [hv] at hnone
    · have hvw := hv.symm.trans hw
      injection hvw with hvw'
      subst hvw'
      exact hpw

/-- C7 witness: in `"a@b@c:1:2"` the IP and port part types each appear
twice; parsing succeeds and keeps the last occurrences (`ip = "c"`,
`port = 2`) and the hostname. -/
theorem parse_last_occurrence_wins_witness :
    Service.parse "a@b@c:1:2" =
      some { description := "a@b@c:1:2", ip := some "c", port := 2,
             hostname := some "a" } ∧
    (Service.mk "a@b@c:1:2" (some "c") 2 (some "a")).ip =
      lastIpStr (scanParts ("a@b@c:1:2".data)) :=
  ⟨by decide,
    (parse_last_occurrence_wins "a@b@c:1:2"
      (Service.mk "a@b@c:1:2" (some "c") 2 (some "a")) (by decide)).2.2.1⟩

/-- C8 (counterexample): the empty token contains neither `@` nor `:`,
but the parser leaves the hostname unset (`None`) instead of equal to
the whole (empty) token: the regex finds no part at all. -/
theorem parse_empty_token_counterexample :
    Service.parse "" =
      some { description := "", ip := none, port := 443, hostname := none } ∧
    Service.parse "" ≠
      some { description := "", ip := none, port := 443, hostname := some "" } := by
  refine ⟨by decide, by decide⟩

/-- C8 (amended): every NON-empty token containing neither `@` nor `:`
parses as a bare hostname: the hostname is the whole token, the port the
default `443`, and there is no ipOverride.  (The empty token instead
parses with the hostname unset.) -/
theorem parse_bare_hostname (d : String) (hne : d.data ≠ [])
    (hsep : ∀ c ∈ d.data, c ≠ '@' ∧ c ≠ ':') :
    Service.parse d =
      some { description := d, ip := none, port := 443, hostname := some d } := by
  rcases hd : d.data with _ | ⟨c, rest⟩
  · exact absurd hd hne
  · have hc := hsep c (by rw [hd]; exact List.mem_cons_self _ _)
    have hrest : rest.takeWhile nonSep = rest :=
      List.takeWhile_eq_self_iff.mpr (fun x hx =>
        nonSep_eq_true.mpr (hsep x (by rw [hd]; exact List.mem_cons_of_mem _ hx)))
    have hdstr : String.mk (c :: rest) = d := by rw [← hd]
    unfold Service.parse scanParts
    rw [hd]
    simp only [List.length_cons, scanPartsF, if_neg hc.1, if_neg hc.2, hrest,
      List.drop_length, scanPartsF_nil, hdstr]
    simp [applyParts]

/-- C8 witness: the bare token `"example.com"` parses to hostname
`"example.com"`, port `443`, no ipOverride. -/
theorem parse_bare_hostname_witness :
    Service.parse "example.com" =
      some { description := "example.com", ip := none, port := 443,
             hostname := some "example.com" } :=
  parse_bare_hostname "example.com" (by decide) (by decide)

/-- C9 (counterexample): the skip test runs on the RAW line before
stripping, so a whitespace-only line is kept (stripped to the empty
token) and a line whose `#` is preceded by whitespace is kept as the
host token `"#x"` — neither is skipped as the claim states. -/
theorem read_hosts_whitespace_counterexample :
    readHostLines ("  ".data) = [[]] ∧
    readHostLines (" #x".data) = [['#', 'x']] ∧
    readHostLines ("  ".data) ≠ [] := by
  refine ⟨by decide, by decide, by decide⟩

/-- C9 (amended): host tokens from `--from-file` are appended after the
positional hosts, in file order, one per line; a line is skipped exactly
when it is empty or its first character is `#` (the test precedes
stripping), and every kept line is stripped of surrounding
whitespace. -/
theorem collect_hosts_appends_kept_lines
    (positional : List (List Char)) (content : List Char) :
    collectHosts positional (some content) =
      positional ++ keptLines (splitOnNl content) ∧
    collectHosts positional none = positional := by
  refine ⟨?_, rfl⟩
  show positional ++ readHostLines content = _
  rw [readHostLines, keptLines_eq]

/-- C10: with the revocation check enabled and a successful fetch, an
exception raised by the OCSP collaborator escapes
`validate_certificate` unwrapped — it is not converted into a
`CertificateValidationError` of any kind, unlike fetch failures, which
are caught and wrapped (third conjunct). -/
theorem validate_ocsp_exception_propagates
    (nb na now ll lh : Int) (e msg : String) :
    validate_certificate (FetchResult.success nb na) (OcspOutcome.raises e)
        now ll lh true =
      ValidationOutcome.uncaught e ∧
    (∀ r : ValidationResult,
      validate_certificate (FetchResult.success nb na) (OcspOutcome.raises e)
          now ll lh true ≠
        ValidationOutcome.result r) ∧
    validate_certificate (FetchResult.otherError msg) (OcspOutcome.raises e)
        now ll lh true =
      ValidationOutcome.result
        (ValidationResult.Failed FailureKind.NetworkError msg) := by
  refine ⟨rfl, ?_, rfl⟩
  intro r hr
  simp [validate_certificate] at hr

end CertificateWatcher
